import Mathlib

/-!
Shallow embedding of the ReportingWithAIAgent backend core:
the agent loop (`createChartGenerationAgent`), the MCP tool client
(`MCPClient.rpcCall` / `MCPClient.callTool`), the streaming adapter
(`streamAgentResponseToWebSocket`, `processResultMessage`, `processMessage`,
`extractJsonFromContent`, `parseResultData`) and the WebSocket transport
client (`WebSocketClient.sendMessage` / `sendThought` / `sendResult` /
`sendError`), together with theorems settling the specification claims.

JavaScript runtime primitives that the source leans on (`JSON.parse`,
`JSON.stringify`, `String.prototype.indexOf` / `lastIndexOf` / `slice` /
`trim` / `includes` / `startsWith`, regular-expression matching for the two
fenced-code-block patterns) are modelled executably below so that every
definition can be evaluated on concrete inputs.
-/

/-- JSON values.  Numeric literals are kept as their source token: none of
the verified code computes with numbers, it only parses and re-serializes
them. -/
inductive Json where
  | null : Json
  | bool : Bool → Json
  | num : String → Json
  | str : String → Json
  | arr : List Json → Json
  | obj : List (String × Json) → Json

/-- JavaScript whitespace as used by `\s`, `trim` and `JSON.parse`. -/
def isJsWs (c : Char) : Bool :=
  c = ' ' || c = '\t' || c = '\n' || c = '\r' || c = '\x0b' || c = '\x0c'

/-- Drop leading JavaScript whitespace. -/
def skipWs : List Char → List Char
  | [] => []
  | c :: cs => if isJsWs c then skipWs cs else c :: cs

/-- Model of `String.prototype.trim`. -/
def jsTrim (s : String) : String :=
  ⟨List.reverse (skipWs (List.reverse (skipWs s.data)))⟩

/-- Does `pat` occur at the start of `cs`? -/
def startsWithL (cs pat : List Char) : Bool :=
  match pat, cs with
  | [], _ => true
  | _ :: _, [] => false
  | p :: ps, c :: cs => p = c && startsWithL cs ps

/-- Model of `String.prototype.includes` on char lists. -/
def containsL (cs pat : List Char) : Bool :=
  match cs with
  | [] => startsWithL [] pat
  | c :: cs' => startsWithL (c :: cs') pat || containsL cs' pat

/-- Model of `String.prototype.includes`. -/
def jsIncludes (s pat : String) : Bool := containsL s.data pat.data

/-- Model of `String.prototype.startsWith`. -/
def jsStartsWith (s pat : String) : Bool := startsWithL s.data pat.data

/-- Index of the first occurrence of `c`, or `-1` (JS `indexOf`). -/
def jsIndexOfChar (s : String) (c : Char) : Int :=
  go s.data 0
where
  go : List Char → Nat → Int
    | [], _ => -1
    | d :: ds, i => if d = c then (i : Int) else go ds (i + 1)

/-- Index of the last occurrence of `c`, or `-1` (JS `lastIndexOf`). -/
def jsLastIndexOfChar (s : String) (c : Char) : Int :=
  go s.data 0 (-1)
where
  go : List Char → Nat → Int → Int
    | [], _, acc => acc
    | d :: ds, i, acc => go ds (i + 1) (if d = c then (i : Int) else acc)

/-- Model of `String.prototype.slice start stop` for `0 ≤ start ≤ stop` (the only way
the verified code uses it). -/
def jsSlice (s : String) (start stop : Nat) : String :=
  ⟨(s.data.take stop).drop start⟩

/-- Numeric value of a hexadecimal digit, if the character is one
(character codes: 0-9 are 48-57, a-f are 97-102, A-F are 65-70). -/
def hexVal (c : Char) : Option Nat :=
  let n := c.toNat
  if 48 ≤ n && n ≤ 57 then some (n - 48)
  else if 97 ≤ n && n ≤ 102 then some (n - 87)
  else if 65 ≤ n && n ≤ 70 then some (n - 55)
  else none

/-- Parse the body of a JSON string literal (after the opening quote),
returning the decoded characters and the remaining input. -/
def parseStrBody : Nat → List Char → Option (List Char × List Char)
  | 0, _ => none
  | _, [] => none
  | fuel + 1, c :: cs =>
    if c = '"' then some ([], cs)
    else if c = '\\' then
      match cs with
      | [] => none
      | e :: cs' =>
        let dec : Option (Char × List Char) :=
          if e = '"' then some ('"', cs')
          else if e = '\\' then some ('\\', cs')
          else if e = '/' then some ('/', cs')
          else if e = 'n' then some ('\n', cs')
          else if e = 't' then some ('\t', cs')
          else if e = 'r' then some ('\r', cs')
          else if e = 'b' then some ('\x08', cs')
          else if e = 'f' then some ('\x0c', cs')
          else if e = 'u' then
            match cs' with
            | h1 :: h2 :: h3 :: h4 :: rest =>
              match hexVal h1, hexVal h2, hexVal h3, hexVal h4 with
              | some a, some b, some c3, some d =>
                some (Char.ofNat (((a * 16 + b) * 16 + c3) * 16 + d), rest)
              | _, _, _, _ => none
            | _ => none
          else none
        match dec with
        | some (ch, rest) =>
          match parseStrBody fuel rest with
          | some (tail, rem) => some (ch :: tail, rem)
          | none => none
        | none => none
    else
      match parseStrBody fuel cs with
      | some (tail, rem) => some (c :: tail, rem)
      | none => none

def isDigit (c : Char) : Bool := 48 ≤ c.toNat && c.toNat ≤ 57

/-- Longest run of decimal digits at the head of the input. -/
def takeDigits : List Char → (List Char × List Char)
  | [] => ([], [])
  | c :: cs =>
    if isDigit c then
      let (ds, rest) := takeDigits cs
      (c :: ds, rest)
    else ([], c :: cs)

/-- Parse a JSON number token, returning its source characters and the rest. -/
def parseNumToken (cs : List Char) : Option (List Char × List Char) :=
  let (sign, cs1) :=
    match cs with
    | '-' :: rest => (['-'], rest)
    | _ => (([] : List Char), cs)
  let (intPart, cs2) := takeDigits cs1
  if intPart.isEmpty then none
  else
    let (fracPart, cs3) :=
      match cs2 with
      | '.' :: rest =>
        let (ds, rest') := takeDigits rest
        if ds.isEmpty then (([] : List Char), cs2) else ('.' :: ds, rest')
      | _ => ([], cs2)
    let (expPart, cs4) :=
      match cs3 with
      | e :: rest =>
        if e = 'e' || e = 'E' then
          let (sgn, rest1) :=
            match rest with
            | '+' :: r => (['+'], r)
            | '-' :: r => (['-'], r)
            | _ => (([] : List Char), rest)
          let (ds, rest2) := takeDigits rest1
          if ds.isEmpty then (([] : List Char), cs3) else (e :: (sgn ++ ds), rest2)
        else ([], cs3)
      | [] => ([], cs3)
    some (sign ++ intPart ++ fracPart ++ expPart, cs4)

mutual

/-- Recursive-descent JSON value parser (fuel-indexed), modelling the grammar
accepted by `JSON.parse`. -/
def parseVal : Nat → List Char → Option (Json × List Char)
  | 0, _ => none
  | fuel + 1, cs =>
    match skipWs cs with
    | [] => none
    | c :: cs' =>
      if c = 'n' then
        if startsWithL cs' ['u', 'l', 'l'] then some (Json.null, cs'.drop 3) else none
      else if c = 't' then
        if startsWithL cs' ['r', 'u', 'e'] then some (Json.bool true, cs'.drop 3) else none
      else if c = 'f' then
        if startsWithL cs' ['a', 'l', 's', 'e'] then some (Json.bool false, cs'.drop 4) else none
      else if c = '"' then
        match parseStrBody (cs'.length + 1) cs' with
        | some (body, rest) => some (Json.str ⟨body⟩, rest)
        | none => none
      else if c = '[' then
        match skipWs cs' with
        | ']' :: rest => some (Json.arr [], rest)
        | _ =>
          match parseElems fuel cs' with
          | some (elems, rest) => some (Json.arr elems, rest)
          | none => none
      else if c = '{' then
        match skipWs cs' with
        | '}' :: rest => some (Json.obj [], rest)
        | _ =>
          match parseMembers fuel cs' with
          | some (mems, rest) => some (Json.obj mems, rest)
          | none => none
      else
        match parseNumToken (c :: cs') with
        | some (tok, rest) => some (Json.num ⟨tok⟩, rest)
        | none => none

/-- Array elements: `value (',' value)* ']'`. -/
def parseElems : Nat → List Char → Option (List Json × List Char)
  | 0, _ => none
  | fuel + 1, cs =>
    match parseVal fuel cs with
    | none => none
    | some (v, rest) =>
      match skipWs rest with
      | ',' :: rest' =>
        match parseElems fuel rest' with
        | some (vs, rem) => some (v :: vs, rem)
        | none => none
      | ']' :: rest' => some ([v], rest')
      | _ => none

/-- Object members: `string ':' value (',' string ':' value)* '}'`. -/
def parseMembers : Nat → List Char → Option (List (String × Json) × List Char)
  | 0, _ => none
  | fuel + 1, cs =>
    match skipWs cs with
    | '"' :: cs' =>
      match parseStrBody (cs'.length + 1) cs' with
      | none => none
      | some (key, rest) =>
        match skipWs rest with
        | ':' :: rest' =>
          match parseVal fuel rest' with
          | none => none
          | some (v, rest2) =>
            match skipWs rest2 with
            | ',' :: rest3 =>
              match parseMembers fuel rest3 with
              | some (mems, rem) => some ((⟨key⟩, v) :: mems, rem)
              | none => none
            | '}' :: rest3 => some ([(⟨key⟩, v)], rest3)
            | _ => none
        | _ => none
    | _ => none

end

namespace JSON

/-- Model of `JSON.parse`: `some v` when the whole input is a valid JSON
document, `none` when `JSON.parse` would throw. -/
def parse (s : String) : Option Json :=
  match parseVal (s.data.length + 1) s.data with
  | some (v, rest) => if skipWs rest = [] then some v else none
  | none => none

/-- Escape one character for a JSON string literal. -/
def escapeChar (c : Char) : List Char :=
  if c = '"' then ['\\', '"']
  else if c = '\\' then ['\\', '\\']
  else if c = '\n' then ['\\', 'n']
  else if c = '\t' then ['\\', 't']
  else if c = '\r' then ['\\', 'r']
  else [c]

/-- Serialize a string as a JSON string literal. -/
def quote (s : String) : String :=
  ⟨'"' :: (s.data.flatMap escapeChar) ++ ['"']⟩

mutual

/-- Model of `JSON.stringify` (compact form; the source's pretty-printing
argument only changes inter-token whitespace, which no claim observes). -/
def stringify : Json → String
  | Json.null => "null"
  | Json.bool true => "true"
  | Json.bool false => "false"
  | Json.num n => n
  | Json.str s => quote s
  | Json.arr xs => "[" ++ stringifyList xs ++ "]"
  | Json.obj fs => "\x7b" ++ stringifyFields fs ++ "\x7d"

def stringifyList : List Json → String
  | [] => ""
  | [x] => stringify x
  | x :: xs => stringify x ++ "," ++ stringifyList xs

def stringifyFields : List (String × Json) → String
  | [] => ""
  | [(k, v)] => quote k ++ ":" ++ stringify v
  | (k, v) :: fs => quote k ++ ":" ++ stringify v ++ "," ++ stringifyFields fs

end

end JSON

/-- Field access `j[k]`, with JS `undefined` collapsed to `Json.null`
(they agree on truthiness, which is all the verified code tests). -/
def Json.get (j : Json) (k : String) : Json :=
  match j with
  | Json.obj fs => go fs
  | _ => Json.null
where
  go : List (String × Json) → Json
    | [] => Json.null
    | (k', v) :: fs => if k' = k then v else go fs

/-- JavaScript truthiness of a JSON value. -/
def jsTruthy : Json → Bool
  | Json.null => false
  | Json.bool b => b
  | Json.str s => s ≠ ""
  | Json.num n => n ≠ "0" && n ≠ "-0" && n ≠ "0.0"
  | Json.arr _ => true
  | Json.obj _ => true

/-- Model of `String.prototype.endsWith`. -/
def jsEndsWith (s pat : String) : Bool := startsWithL s.data.reverse pat.data.reverse

/-- The backtick character, which delimits fenced code blocks. -/
def backtickChar : Char := Char.ofNat 96

/-- The lazy part of the patterns `` /```json\s*(\{[\s\S]*?\})\s*```/ `` and
`` /```\s*(\{[\s\S]*?\})\s*```/ ``: after the opening `{`, consume as few
characters as possible until a `}` that is followed by `\s*` and three
backticks.  `acc` holds the capture so far, reversed. -/
def lazyBraceCapture : Nat → List Char → List Char → Option (List Char)
  | 0, _, _ => none
  | _, _, [] => none
  | fuel + 1, acc, c :: rest =>
    if c = '}' && startsWithL (skipWs rest) [backtickChar, backtickChar, backtickChar] then
      some (acc.reverse ++ ['}'])
    else
      lazyBraceCapture fuel (c :: acc) rest

/-- Leftmost match of `opener ++ \s* ++ (\{[\s\S]*?\}) ++ \s* ++ three
backticks`, returning the capture group.  Models `String.prototype.match`
with the two code-block regular expressions of `extractJsonFromContent`. -/
def matchFencedBlock (opener : List Char) : Nat → List Char → Option String
  | 0, _ => none
  | fuel + 1, cs =>
    let attempt : Option String :=
      if startsWithL cs opener then
        match skipWs (cs.drop opener.length) with
        | '{' :: rest =>
          match lazyBraceCapture (rest.length + 1) ['{'] rest with
          | some cap => some ⟨cap⟩
          | none => none
        | _ => none
      else none
    match attempt with
    | some cap => some cap
    | none =>
      match cs with
      | [] => none
      | _ :: cs' => matchFencedBlock opener fuel cs'

/-- First `{` to last `}` slice-and-validate step shared by the `"type"`/
`"data"` and `"error"` branches of `extractJsonFromContent`. -/
def braceSpanExtract (trimmed : String) : Option String :=
  let startIdx := jsIndexOfChar trimmed '{'
  let endIdx := jsLastIndexOfChar trimmed '}' + 1
  if startIdx ≠ -1 ∧ endIdx > startIdx then
    let jsonStr := jsSlice trimmed startIdx.toNat endIdx.toNat
    match JSON.parse jsonStr with
    | some _ => some jsonStr
    | none => none
  else none

/-- Embedding of `extractJsonFromContent` from the LangGraph variant of `streaming.ts`
(lines 296–355): recognize a final structured answer inside assistant text.
Returns the extracted JSON source text, or `none`. -/
def extractJsonFromContent (content : String) : Option String :=
  let trimmed := jsTrim content
  match matchFencedBlock (backtickChar :: backtickChar :: backtickChar :: ['j', 's', 'o', 'n'])
      (trimmed.data.length + 1) trimmed.data with
  | some cap => some (jsTrim cap)
  | none =>
  match matchFencedBlock [backtickChar, backtickChar, backtickChar]
      (trimmed.data.length + 1) trimmed.data with
  | some cap => some (jsTrim cap)
  | none =>
  if jsStartsWith trimmed "\x7b" && jsEndsWith trimmed "\x7d" then
    match JSON.parse trimmed with
    | some _ => some trimmed
    | none => none
  else if jsIncludes trimmed "\"type\"" && jsIncludes trimmed "\"data\"" then
    braceSpanExtract trimmed
  else if jsIncludes trimmed "\"error\"" then
    braceSpanExtract trimmed
  else
    none

/-- Embedding of `parseResultData` from the Anthropic-SDK variant of `streaming.ts`
(lines 108–135): direct parse, then first-`{`-to-last-`}` slice, then an
error object. -/
def parseResultData (resultData : Json) : Json :=
  match resultData with
  | Json.str s =>
    (match JSON.parse s with
     | some v => v
     | none =>
       let startIdx := jsIndexOfChar s '{'
       let endIdx := jsLastIndexOfChar s '}' + 1
       let fallback : Json := Json.obj
         [("type", Json.str "error"),
          ("message", Json.str "Failed to parse agent response as JSON"),
          ("original", Json.str s)]
       if startIdx ≠ -1 ∧ endIdx > startIdx then
         match JSON.parse (jsSlice s startIdx.toNat endIdx.toNat) with
         | some v => v
         | none => fallback
       else fallback)
  | v => v

/-- Embedding of `parseResultData` from the LangGraph variant of `streaming.ts`
(lines 361–389): same chain, with fallback `{error, original}`. -/
def parseResultDataLG (resultData : Json) : Json :=
  match resultData with
  | Json.str s =>
    (match JSON.parse s with
     | some v => v
     | none =>
       let startIdx := jsIndexOfChar s '{'
       let endIdx := jsLastIndexOfChar s '}' + 1
       let fallback : Json := Json.obj
         [("error", Json.str "Failed to parse agent response as JSON"),
          ("original", Json.str s)]
       if startIdx ≠ -1 ∧ endIdx > startIdx then
         match JSON.parse (jsSlice s startIdx.toNat endIdx.toNat) with
         | some v => v
         | none => fallback
       else fallback)
  | v => v

namespace WebSocketClient

/-- The object `sendThought` passes to `sendMessage`. -/
def sendThought (content : String) : Json :=
  Json.obj [("type", Json.str "thought"), ("content", Json.str content)]

/-- The object `sendResult` passes to `sendMessage`. -/
def sendResult (data : Json) : Json :=
  Json.obj [("type", Json.str "result"), ("data", data)]

/-- The object `sendError` passes to `sendMessage`. -/
def sendError (message : String) : Json :=
  Json.obj [("error", Json.str message)]

/-- Method `sendMessage` serializes its payload before posting it to the
connection: strings go out as-is, everything else through `JSON.stringify`. -/
def sendMessage (data : Json) : String :=
  match data with
  | Json.str s => s
  | d => JSON.stringify d

end WebSocketClient

/-- Shape of `ThoughtMessage` from `types/websocket.ts`. -/
def isThoughtMessageShape : Json → Bool
  | Json.obj [("type", Json.str "thought"), ("content", Json.str _)] => true
  | Json.obj [("content", Json.str _), ("type", Json.str "thought")] => true
  | _ => false

/-- Shape of `ResultMessage` from `types/websocket.ts`. -/
def isResultMessageShape : Json → Bool
  | Json.obj [("type", Json.str "result"), ("data", _)] => true
  | Json.obj [("data", _), ("type", Json.str "result")] => true
  | _ => false

/-- Shape of `ErrorMessage` from `types/websocket.ts` (also declared in
`utils/error-handler.ts`): exactly a `type` field equal to `"error"` and a
string `message` field. -/
def isErrorMessageShape : Json → Bool
  | Json.obj [("type", Json.str "error"), ("message", Json.str _)] => true
  | Json.obj [("message", Json.str _), ("type", Json.str "error")] => true
  | _ => false

/-- Membership in the declared wire vocabulary
`WebSocketMessage = ThoughtMessage | ResultMessage | ErrorMessage`. -/
def conformsToWebSocketMessage (j : Json) : Bool :=
  isThoughtMessageShape j || isResultMessageShape j || isErrorMessageShape j

/-- An HTTP reply as observed by `fetch` inside `MCPClient.rpcCall`. -/
structure HttpResponse where
  ok : Bool
  status : Nat
  statusText : String
  body : String

namespace MCPClient

/-- Embedding of `MCPClient.rpcCall` (lines 31–55 of the Anthropic-SDK agent): the
transport argument is the observed `fetch` behavior (`none` = the `fetch`
promise rejects).  `Except.error` models a thrown exception: the method
throws on transport failure, non-2xx status, a body `response.json()`
cannot parse, or a JSON-RPC error envelope; otherwise it returns
`result.result`. -/
def rpcCall (transport : Option HttpResponse) : Except String Json :=
  match transport with
  | none => Except.error "fetch failed"
  | some response =>
    if !response.ok then
      Except.error ("MCP request failed: " ++ toString response.status ++ " "
        ++ response.statusText ++ " - " ++ response.body)
    else
      match JSON.parse response.body with
      | none => Except.error "Unexpected token in JSON"
      | some result =>
        if jsTruthy (result.get "error") then
          Except.error ("MCP error: " ++
            (match (result.get "error").get "message" with
             | Json.str m => if m ≠ "" then m else JSON.stringify (result.get "error")
             | _ => JSON.stringify (result.get "error")))
        else
          Except.ok (result.get "result")

/-- A tool descriptor in Anthropic format, as built by `getTools`. -/
structure ToolSpec where
  name : String
  description : String
  input_schema : Json

/-- Embedding of `MCPClient.getTools` (lines 60–75): one `tools/list` RPC, mapping the
provider's descriptors; an `rpcCall` throw escapes unchanged. -/
def getTools (transport : Option HttpResponse) : Except String (List ToolSpec) :=
  match rpcCall transport with
  | Except.error e => Except.error e
  | Except.ok result =>
    match result.get "tools" with
    | Json.arr ts =>
      Except.ok (ts.map fun t =>
        { name := match t.get "name" with | Json.str n => n | _ => ""
          description := match t.get "description" with | Json.str d => d | _ => ""
          input_schema :=
            if jsTruthy (t.get "inputSchema") then t.get "inputSchema"
            else Json.obj [("type", Json.str "object"), ("properties", Json.obj [])] })
    | _ => Except.ok []

/-- Embedding of `MCPClient.callTool` (lines 80–94): a `tools/call` RPC with no exception
handling of its own — any `rpcCall` throw escapes `callTool`.  The tool name
and arguments only shape the request body, which the transport argument
already accounts for. -/
def callTool (transport : Option HttpResponse) (_toolName : String) (_args : Json) :
    Except String Json :=
  rpcCall transport

end MCPClient

/-- Anthropic content blocks as consumed by the agent loop. -/
inductive ContentBlock where
  | text (t : String)
  | tool_use (id name : String) (input : Json)

/-- One completion-service reply: a stop reason and content blocks. -/
structure CompletionResponse where
  stop_reason : String
  content : List ContentBlock

/-- Embedding of `Anthropic.ToolResultBlockParam` as built by the loop. -/
structure ToolResultBlockParam where
  tool_use_id : String
  content : String
  is_error : Bool

/-- One conversation turn (`Anthropic.MessageParam`). -/
inductive Turn where
  | user (content : String)
  | assistant (content : List ContentBlock)
  | toolResults (results : List ToolResultBlockParam)

/-- Messages yielded by `createChartGenerationAgent` (`AgentMessage` in the
source; the source's `result` message with `subtype: 'success' | 'error'` is
split into `result_success` / `result_error`). -/
inductive AgentMessage where
  | assistant (content : List ContentBlock)
  | tool_use (name : String) (input : Json)
  | tool_result (name : String) (outcome : Except String Json)
  | result_success (result : String)
  | result_error (error : String)

/-- Environment behavior for one request: the discovery call's outcome, the
completion service's reply as a function of the conversation, and each tool
invocation's outcome (indexed by invocation count).  `Except.error` models a
thrown exception / rejected promise. -/
structure Oracle where
  getTools : Except String (List MCPClient.ToolSpec)
  complete : List Turn → Except String CompletionResponse
  callTool : Nat → String → Json → Except String Json

/-- Tool-client operations, in call order. -/
inductive MCPOp where
  | getTools
  | callTool (name : String)
deriving DecidableEq

/-- How the agent generator finished: ran to completion, or raised. -/
inductive RunEnd where
  | done
  | raised (e : String)
deriving DecidableEq

def ContentBlock.textOf : ContentBlock → Option String
  | .text t => some t
  | _ => none

def toolUseOf : ContentBlock → Option (String × String × Json)
  | .tool_use id name input => some (id, name, input)
  | _ => none

/-- Formatting of a successful tool result for the conversation
(lines 223–234): raw strings pass through, MCP `{content: [...]}` arrays are
flattened via `c.text || JSON.stringify(c)`, everything else is stringified
(the source's pretty-print argument only changes whitespace). -/
def formatToolResult (result : Json) : String :=
  match result with
  | Json.str s => s
  | r =>
    if jsTruthy (r.get "content") then
      match r.get "content" with
      | Json.arr cs =>
        String.intercalate "\n" (cs.map fun c =>
          match c.get "text" with
          | Json.str t => if t ≠ "" then t else JSON.stringify c
          | _ => JSON.stringify c)
      | other => JSON.stringify other
    else JSON.stringify r

/-- Handling of one requested tool call (lines 204–261): yield `tool_use`,
invoke the tool client, yield `tool_result`, and build the tool-result block
for the conversation — marked `is_error` with an `Error executing tool:`
content when the invocation threw. -/
def handleToolUse (o : Oracle) (callIdx : Nat) (blk : String × String × Json) :
    List AgentMessage × ToolResultBlockParam :=
  match o.callTool callIdx blk.2.1 blk.2.2 with
  | Except.ok result =>
    ([AgentMessage.tool_use blk.2.1 blk.2.2,
      AgentMessage.tool_result blk.2.1 (Except.ok result)],
     { tool_use_id := blk.1, content := formatToolResult result, is_error := false })
  | Except.error e =>
    ([AgentMessage.tool_use blk.2.1 blk.2.2,
      AgentMessage.tool_result blk.2.1 (Except.error e)],
     { tool_use_id := blk.1, content := "Error executing tool: " ++ e, is_error := true })

/-- The `for (const toolUse of toolUseBlocks)` loop: sequential dispatch,
accumulating yielded events, tool-client operations and tool-result blocks. -/
def processToolCalls (o : Oracle) :
    Nat → List (String × String × Json) →
    List AgentMessage × List MCPOp × List ToolResultBlockParam × Nat
  | callIdx, [] => ([], [], [], callIdx)
  | callIdx, blk :: rest =>
    let h := handleToolUse o callIdx blk
    let r := processToolCalls o (callIdx + 1) rest
    (h.1 ++ r.1, MCPOp.callTool blk.2.1 :: r.2.1, h.2 :: r.2.2.1, r.2.2.2)

/-- Result of running the reasoning loop. -/
structure IterResult where
  events : List AgentMessage
  ops : List MCPOp
  serviceCalls : Nat
  outcome : RunEnd

def MAX_ITERATIONS : Nat := 15

/-- The loop's iteration-budget failure reason
(`Agent did not complete within ${MAX_ITERATIONS} iterations`). -/
def budgetMessage : String :=
  "Agent did not complete within " ++ toString MAX_ITERATIONS ++ " iterations"

/-- The `while (iteration < MAX_ITERATIONS)` loop of
`createChartGenerationAgent` (lines 153–275), with `fuel` the remaining
iterations: call the completion service (a throw escapes the generator),
yield the assistant message, finish with `result`/`success` when no tool
call is requested or the stop reason is `end_turn`, otherwise dispatch the
requested calls and loop; an exhausted budget yields `result`/`error`. -/
def agentIter (o : Oracle) : Nat → Nat → List Turn → IterResult
  | 0, _, _ =>
    { events := [AgentMessage.result_error budgetMessage], ops := [],
      serviceCalls := 0, outcome := RunEnd.done }
  | fuel + 1, callIdx, messages =>
    match o.complete messages with
    | Except.error e =>
      { events := [], ops := [], serviceCalls := 1, outcome := RunEnd.raised e }
    | Except.ok response =>
      let toolUseBlocks := response.content.filterMap toolUseOf
      if toolUseBlocks.isEmpty || response.stop_reason == "end_turn" then
        let finalText := String.intercalate "\n" (response.content.filterMap ContentBlock.textOf)
        { events := [AgentMessage.assistant response.content,
                     AgentMessage.result_success finalText],
          ops := [], serviceCalls := 1, outcome := RunEnd.done }
      else
        let pr := processToolCalls o callIdx toolUseBlocks
        let rest := agentIter o fuel pr.2.2.2
          ((messages ++ [Turn.assistant response.content]) ++ [Turn.toolResults pr.2.2.1])
        { events := AgentMessage.assistant response.content :: (pr.1 ++ rest.events),
          ops := pr.2.1 ++ rest.ops,
          serviceCalls := 1 + rest.serviceCalls,
          outcome := rest.outcome }

/-- A whole agent-generator run. -/
structure AgentRun where
  events : List AgentMessage
  mcpOps : List MCPOp
  serviceCalls : Nat
  outcome : RunEnd

/-- Embedding of `createChartGenerationAgent` (lines 130–276): discovery exactly once (a
throw there escapes before any yield), then the bounded reasoning loop. -/
def createChartGenerationAgent (o : Oracle) (userPrompt : String) : AgentRun :=
  match o.getTools with
  | Except.error e =>
    { events := [], mcpOps := [MCPOp.getTools], serviceCalls := 0,
      outcome := RunEnd.raised e }
  | Except.ok _tools =>
    let r := agentIter o MAX_ITERATIONS 0 [Turn.user userPrompt]
    { events := r.events, mcpOps := MCPOp.getTools :: r.ops,
      serviceCalls := r.serviceCalls, outcome := r.outcome }

/-- Embedding of `processAssistantMessage` (Anthropic-SDK `streaming.ts`, lines 59–79):
send one `thought` per truthy text block.  The sink argument gives each
send attempt's outcome by attempt index (`none` = delivered, `some e` =
`postToConnection` threw; `sendMessage` logs and rethrows, lines 38–44).
Returns the payloads submitted to the sink, the next attempt index, and the
exception that escaped, if any. -/
def processAssistantMessage (sink : Nat → Option String) :
    Nat → List ContentBlock → List Json × Nat × Option String
  | k, [] => ([], k, none)
  | k, ContentBlock.text t :: rest =>
    if t ≠ "" then
      match sink k with
      | none =>
        let r := processAssistantMessage sink (k + 1) rest
        (WebSocketClient.sendThought t :: r.1, r.2.1, r.2.2)
      | some e => ([WebSocketClient.sendThought t], k + 1, some e)
    else processAssistantMessage sink k rest
  | k, _ :: rest => processAssistantMessage sink k rest

/-- Embedding of `processResultMessage` (lines 81–106): a `success` result goes out via
`sendResult` after `parseResultData`; a non-`success` result ALSO goes out
via `sendResult`, with an `{error: 'Agent processing failed: ' + …}` data
payload (`message.error || 'Unknown error'`). -/
def processResultMessage (sink : Nat → Option String) (k : Nat) (msg : AgentMessage) :
    List Json × Nat × Option String :=
  match msg with
  | AgentMessage.result_success r =>
    let payload := WebSocketClient.sendResult (parseResultData (Json.str r))
    ([payload], k + 1, sink k)
  | AgentMessage.result_error err =>
    let reason := if err = "" then "Unknown error" else err
    let payload := WebSocketClient.sendResult
      (Json.obj [("error", Json.str ("Agent processing failed: " ++ reason))])
    ([payload], k + 1, sink k)
  | _ => ([], k, none)

/-- The `for await (const message of agentStream)` loop (lines 30–39):
`assistant` messages become thoughts, `result` messages become the terminal
send, `tool_use` / `tool_result` messages are not forwarded.  Processing
stops at the first exception (a failed send). -/
def streamLoop (sink : Nat → Option String) :
    Nat → List AgentMessage → List Json × Nat × Option String
  | k, [] => ([], k, none)
  | k, msg :: rest =>
    let hd : List Json × Nat × Option String :=
      match msg with
      | AgentMessage.assistant content => processAssistantMessage sink k content
      | AgentMessage.result_success r =>
        processResultMessage sink k (AgentMessage.result_success r)
      | AgentMessage.result_error e =>
        processResultMessage sink k (AgentMessage.result_error e)
      | _ => ([], k, none)
    match hd.2.2 with
    | none =>
      let r := streamLoop sink hd.2.1 rest
      (hd.1 ++ r.1, r.2.1, r.2.2)
    | some e => (hd.1, hd.2.1, some e)

/-- Embedding of `streamAgentResponseToWebSocket` (lines 13–57): consume the agent
stream; any exception — whether a failed send or a throw escaping the
generator — is caught at the boundary and turned into one `sendError`
attempt (`handleError` formats the error's message string).  Returns all
payloads submitted to the transport sink in order, plus `true` when the
final `sendError` itself failed (the handler's promise rejects). -/
def streamAgentResponseToWebSocket (sink : Nat → Option String) (run : AgentRun) :
    List Json × Bool :=
  let r := streamLoop sink 0 run.events
  match r.2.2 with
  | some e => (r.1 ++ [WebSocketClient.sendError e], (sink r.2.1).isSome)
  | none =>
    match run.outcome with
    | RunEnd.done => (r.1, false)
    | RunEnd.raised e => (r.1 ++ [WebSocketClient.sendError e], (sink r.2.1).isSome)

/-- A sink whose sends all succeed. -/
def reliableSink : Nat → Option String := fun _ => none

/-- Shape `\x7berror: ...\x7d` as actually produced by `sendError`. -/
def isRawErrorPayload : Json → Bool
  | Json.obj [("error", Json.str _)] => true
  | _ => false

/-- A terminal send: the `sendResult` shape or the `sendError` shape. -/
def isTerminalPayload (j : Json) : Bool :=
  isResultMessageShape j || isRawErrorPayload j

/-- Predicate `thought* terminal`: zero or more thought payloads followed by exactly
one terminal payload, nothing after it. -/
def thoughtsThenOneTerminal : List Json → Bool
  | [] => false
  | [t] => isTerminalPayload t
  | m :: rest => isThoughtMessageShape m && thoughtsThenOneTerminal rest

/-- Count of error-classified sends (either the declared `{type:'error'}`
shape or the `{error: …}` shape `sendError` really produces). -/
def countErrorSends (msgs : List Json) : Nat :=
  msgs.countP fun j => isErrorMessageShape j || isRawErrorPayload j

/-- Count of `result`-typed sends. -/
def countResultSends (msgs : List Json) : Nat :=
  msgs.countP fun j => isResultMessageShape j

/-- A message from the LangGraph stream as inspected by `processMessage`:
its `type` tag, its `constructor.name`, and its `content` value. -/
structure LGMessage where
  type : Option String
  ctorName : Option String
  content : Json

/-- Outcome of `processMessage`: which client message was sent, if any
(mirrors the source's `'thought' | 'result' | 'skipped'` return value,
enriched with the payload that went to the sink). -/
inductive ProcessOutcome where
  | thought (content : String)
  | result (data : Json)
  | skipped

/-- Flattening of `message.content` into a string (LangGraph `streaming.ts`
lines 236–258).  `text` fields are modelled at string type, as produced by
the upstream SDK. -/
def lgContentString (content : Json) : String :=
  match content with
  | Json.str s => s
  | Json.arr blocks =>
    String.join (blocks.map fun block =>
      match block with
      | Json.str s => s
      | b =>
        match b.get "type", b.get "text" with
        | Json.str "text", Json.str t => t
        | _, _ => "")
  | Json.obj fs =>
    match (Json.obj fs).get "text" with
    | Json.str t => if t ≠ "" then t else JSON.stringify (Json.obj fs)
    | _ => JSON.stringify (Json.obj fs)
  | other => JSON.stringify other

/-- Embedding of `processMessage` (LangGraph `streaming.ts`, lines 217–291): skip
falsy-content and tool messages, flatten the content, skip blank content,
then either recognize a final structured answer (→ one `result` send with
the parsed payload) or forward the content verbatim as one `thought`. -/
def processMessage (message : LGMessage) : ProcessOutcome :=
  if !(jsTruthy message.content) then ProcessOutcome.skipped
  else if message.type = some "tool" || message.ctorName = some "ToolMessage"
      || (match message.content with
          | Json.str s => jsStartsWith s "[\x7b\"schema\":"
          | _ => false) then
    ProcessOutcome.skipped
  else
    let content := lgContentString message.content
    if jsTrim content = "" then ProcessOutcome.skipped
    else
      match extractJsonFromContent content with
      | some extracted => ProcessOutcome.result (parseResultDataLG (Json.str extracted))
      | none => ProcessOutcome.thought content


/-- Is this a terminal (`result`) event of the agent stream? -/
def isResultEvent : AgentMessage → Bool
  | AgentMessage.result_success _ => true
  | AgentMessage.result_error _ => true
  | _ => false

/-- Is this the agent's success terminal event? -/
def isSuccessEvent : AgentMessage → Bool
  | AgentMessage.result_success _ => true
  | _ => false

/-- Is this the agent's failure terminal event? -/
def isFailureEvent : AgentMessage → Bool
  | AgentMessage.result_error _ => true
  | _ => false

/-- Is this the failure terminal event with the iteration-budget reason? -/
def isBudgetFailure : AgentMessage → Bool
  | AgentMessage.result_error e => e = budgetMessage
  | _ => false

/-- Is this tool-client operation an invocation (as opposed to discovery)? -/
def isCallToolOp : MCPOp → Bool
  | MCPOp.callTool _ => true
  | _ => false

lemma handleToolUse_events_nonterminal (o : Oracle) (k : Nat) (blk : String × String × Json) :
    ((handleToolUse o k blk).1).all (fun ev => !isResultEvent ev) = true := by
  cases h : o.callTool k blk.2.1 blk.2.2 <;> simp [handleToolUse, h, isResultEvent]

lemma processToolCalls_events_nonterminal (o : Oracle) :
    ∀ (blks : List (String × String × Json)) (k : Nat),
      ((processToolCalls o k blks).1).all (fun ev => !isResultEvent ev) = true := by
  intro blks
  induction blks with
  | nil => intro k; simp [processToolCalls]
  | cons blk rest ih =>
    intro k
    simp only [processToolCalls, List.all_append, Bool.and_eq_true]
    exact ⟨handleToolUse_events_nonterminal o k blk, ih (k + 1)⟩

lemma processToolCalls_ops_invocations (o : Oracle) :
    ∀ (blks : List (String × String × Json)) (k : Nat),
      ((processToolCalls o k blks).2.1).all isCallToolOp = true := by
  intro blks
  induction blks with
  | nil => intro k; simp [processToolCalls]
  | cons blk rest ih =>
    intro k
    simp only [processToolCalls, List.all_cons, Bool.and_eq_true]
    exact ⟨rfl, ih (k + 1)⟩

lemma agentIter_zero (o : Oracle) (k : Nat) (messages : List Turn) :
    agentIter o 0 k messages =
      { events := [AgentMessage.result_error budgetMessage], ops := [],
        serviceCalls := 0, outcome := RunEnd.done } := rfl

lemma agentIter_succ_raise (o : Oracle) (n k : Nat) (messages : List Turn) (e : String)
    (hc : o.complete messages = Except.error e) :
    agentIter o (n + 1) k messages =
      { events := [], ops := [], serviceCalls := 1, outcome := RunEnd.raised e } := by
  simp [agentIter, hc]

lemma agentIter_succ_terminal (o : Oracle) (n k : Nat) (messages : List Turn)
    (response : CompletionResponse)
    (hc : o.complete messages = Except.ok response)
    (hterm : ((response.content.filterMap toolUseOf).isEmpty
      || response.stop_reason == "end_turn") = true) :
    agentIter o (n + 1) k messages =
      { events := [AgentMessage.assistant response.content,
          AgentMessage.result_success
            (String.intercalate "\n" (response.content.filterMap ContentBlock.textOf))],
        ops := [], serviceCalls := 1, outcome := RunEnd.done } := by
  simp [agentIter, hc, hterm]

lemma agentIter_succ_tools (o : Oracle) (n k : Nat) (messages : List Turn)
    (response : CompletionResponse)
    (hc : o.complete messages = Except.ok response)
    (hterm : ((response.content.filterMap toolUseOf).isEmpty
      || response.stop_reason == "end_turn") = false) :
    agentIter o (n + 1) k messages =
      { events := AgentMessage.assistant response.content ::
          ((processToolCalls o k (response.content.filterMap toolUseOf)).1 ++
            (agentIter o n ((processToolCalls o k (response.content.filterMap toolUseOf)).2.2.2)
              ((messages ++ [Turn.assistant response.content]) ++
                [Turn.toolResults
                  ((processToolCalls o k (response.content.filterMap toolUseOf)).2.2.1)])).events),
        ops := (processToolCalls o k (response.content.filterMap toolUseOf)).2.1 ++
            (agentIter o n ((processToolCalls o k (response.content.filterMap toolUseOf)).2.2.2)
              ((messages ++ [Turn.assistant response.content]) ++
                [Turn.toolResults
                  ((processToolCalls o k (response.content.filterMap toolUseOf)).2.2.1)])).ops,
        serviceCalls := 1 +
            (agentIter o n ((processToolCalls o k (response.content.filterMap toolUseOf)).2.2.2)
              ((messages ++ [Turn.assistant response.content]) ++
                [Turn.toolResults
                  ((processToolCalls o k (response.content.filterMap toolUseOf)).2.2.1)])).serviceCalls,
        outcome := (agentIter o n ((processToolCalls o k (response.content.filterMap toolUseOf)).2.2.2)
              ((messages ++ [Turn.assistant response.content]) ++
                [Turn.toolResults
                  ((processToolCalls o k (response.content.filterMap toolUseOf)).2.2.1)])).outcome } := by
  simp [agentIter, hc, hterm]

/-- Structure of one reasoning-loop run: either it ends with the success
terminal event, or with the budget-exhaustion terminal event, or the
generator raised; in every case all earlier events are non-terminal. -/
lemma agentIter_shape (o : Oracle) :
    ∀ (fuel k : Nat) (messages : List Turn),
      (∃ pre s, (agentIter o fuel k messages).events = pre ++ [AgentMessage.result_success s]
        ∧ pre.all (fun ev => !isResultEvent ev) = true
        ∧ (agentIter o fuel k messages).outcome = RunEnd.done)
      ∨ (∃ pre, (agentIter o fuel k messages).events = pre ++ [AgentMessage.result_error budgetMessage]
        ∧ pre.all (fun ev => !isResultEvent ev) = true
        ∧ (agentIter o fuel k messages).outcome = RunEnd.done)
      ∨ (∃ e, ((agentIter o fuel k messages).events).all (fun ev => !isResultEvent ev) = true
        ∧ (agentIter o fuel k messages).outcome = RunEnd.raised e) := by
  intro fuel
  induction fuel with
  | zero =>
    intro k messages
    right; left
    exact ⟨[], by simp [agentIter_zero], by simp, by simp [agentIter_zero]⟩
  | succ n ih =>
    intro k messages
    cases hc : o.complete messages with
    | error e =>
      right; right
      exact ⟨e, by simp [agentIter_succ_raise o n k messages e hc],
        by simp [agentIter_succ_raise o n k messages e hc]⟩
    | ok response =>
      cases hterm : ((response.content.filterMap toolUseOf).isEmpty
          || response.stop_reason == "end_turn") with
      | true =>
        left
        refine ⟨[AgentMessage.assistant response.content],
          String.intercalate "\n" (response.content.filterMap ContentBlock.textOf), ?_, ?_, ?_⟩
        · simp [agentIter_succ_terminal o n k messages response hc hterm]
        · simp [isResultEvent]
        · simp [agentIter_succ_terminal o n k messages response hc hterm]
      | false =>
        have heq := agentIter_succ_tools o n k messages response hc hterm
        have hpre := processToolCalls_events_nonterminal o
          (response.content.filterMap toolUseOf) k
        rcases ih ((processToolCalls o k (response.content.filterMap toolUseOf)).2.2.2)
            ((messages ++ [Turn.assistant response.content]) ++
              [Turn.toolResults ((processToolCalls o k (response.content.filterMap toolUseOf)).2.2.1)])
          with ⟨pre, s, hev, hall, hout⟩ | ⟨pre, hev, hall, hout⟩ | ⟨e, hall, hout⟩
        · left
          refine ⟨AgentMessage.assistant response.content ::
            ((processToolCalls o k (response.content.filterMap toolUseOf)).1 ++ pre), s, ?_, ?_, ?_⟩
          · rw [heq]
            dsimp only
            rw [hev]
            simp [List.append_assoc]
          · simp [isResultEvent, hpre, hall, List.all_append]
            exact ⟨by simpa using hpre, by simpa using hall⟩
          · rw [heq]; exact hout
        · right; left
          refine ⟨AgentMessage.assistant response.content ::
            ((processToolCalls o k (response.content.filterMap toolUseOf)).1 ++ pre), ?_, ?_, ?_⟩
          · rw [heq]
            dsimp only
            rw [hev]
            simp [List.append_assoc]
          · simp [isResultEvent, hpre, hall, List.all_append]
            exact ⟨by simpa using hpre, by simpa using hall⟩
          · rw [heq]; exact hout
        · right; right
          refine ⟨e, ?_, ?_⟩
          · rw [heq]
            simp [isResultEvent, List.all_append]
            exact ⟨by simpa using hpre, by simpa using hall⟩
          · rw [heq]; exact hout

lemma agentIter_serviceCalls_le (o : Oracle) :
    ∀ (fuel k : Nat) (messages : List Turn),
      (agentIter o fuel k messages).serviceCalls ≤ fuel := by
  intro fuel
  induction fuel with
  | zero => intro k messages; simp [agentIter_zero]
  | succ n ih =>
    intro k messages
    cases hc : o.complete messages with
    | error e => simp [agentIter_succ_raise o n k messages e hc]
    | ok response =>
      cases hterm : ((response.content.filterMap toolUseOf).isEmpty
          || response.stop_reason == "end_turn") with
      | true => simp [agentIter_succ_terminal o n k messages response hc hterm]
      | false =>
        rw [agentIter_succ_tools o n k messages response hc hterm]
        dsimp only
        have := ih ((processToolCalls o k (response.content.filterMap toolUseOf)).2.2.2)
          ((messages ++ [Turn.assistant response.content]) ++
            [Turn.toolResults ((processToolCalls o k (response.content.filterMap toolUseOf)).2.2.1)])
        omega

lemma agentIter_serviceCalls_pos (o : Oracle) (n k : Nat) (messages : List Turn) :
    1 ≤ (agentIter o (n + 1) k messages).serviceCalls := by
  cases hc : o.complete messages with
  | error e => simp [agentIter_succ_raise o n k messages e hc]
  | ok response =>
    cases hterm : ((response.content.filterMap toolUseOf).isEmpty
        || response.stop_reason == "end_turn") with
    | true => simp [agentIter_succ_terminal o n k messages response hc hterm]
    | false =>
      rw [agentIter_succ_tools o n k messages response hc hterm]
      dsimp only
      omega

lemma agentIter_ops_invocations (o : Oracle) :
    ∀ (fuel k : Nat) (messages : List Turn),
      ((agentIter o fuel k messages).ops).all isCallToolOp = true := by
  intro fuel
  induction fuel with
  | zero => intro k messages; simp [agentIter_zero]
  | succ n ih =>
    intro k messages
    cases hc : o.complete messages with
    | error e => simp [agentIter_succ_raise o n k messages e hc]
    | ok response =>
      cases hterm : ((response.content.filterMap toolUseOf).isEmpty
          || response.stop_reason == "end_turn") with
      | true => simp [agentIter_succ_terminal o n k messages response hc hterm]
      | false =>
        rw [agentIter_succ_tools o n k messages response hc hterm]
        dsimp only
        rw [List.all_append]
        rw [processToolCalls_ops_invocations o (response.content.filterMap toolUseOf) k]
        rw [ih ((processToolCalls o k (response.content.filterMap toolUseOf)).2.2.2)
          ((messages ++ [Turn.assistant response.content]) ++
            [Turn.toolResults ((processToolCalls o k (response.content.filterMap toolUseOf)).2.2.1)])]
        rfl

lemma any_eq_false_of_all_nonresult (l : List AgentMessage) (p : AgentMessage → Bool)
    (himp : ∀ ev, p ev = true → isResultEvent ev = true)
    (h : l.all (fun ev => !isResultEvent ev) = true) : l.any p = false := by
  rw [List.any_eq_false]
  intro x hx hpx
  have h1 := (List.all_eq_true.mp h) x hx
  have h2 := himp x hpx
  simp at h1
  rw [h2] at h1
  exact Bool.false_ne_true h1.symm

lemma isBudgetFailure_isResult (ev : AgentMessage) :
    isBudgetFailure ev = true → isResultEvent ev = true := by
  cases ev <;> simp [isBudgetFailure, isResultEvent]

lemma isSuccessEvent_isResult (ev : AgentMessage) :
    isSuccessEvent ev = true → isResultEvent ev = true := by
  cases ev <;> simp [isSuccessEvent, isResultEvent]

lemma isFailureEvent_isResult (ev : AgentMessage) :
    isFailureEvent ev = true → isResultEvent ev = true := by
  cases ev <;> simp [isFailureEvent, isResultEvent]

/-- A behavior on which the completion service requests a tool call on
every round and never returns a terminal stop reason. -/
def loopingOracle : Oracle where
  getTools := Except.ok []
  complete := fun _ => Except.ok
    { stop_reason := "tool_use",
      content := [ContentBlock.tool_use "id1" "execute_sql" (Json.obj [])] }
  callTool := fun _ _ _ => Except.ok (Json.str "rows")

/-- C2: for every request, the agent loop performs at most
`MAX_ITERATIONS` (15) completion-service calls; and if the run contains the
iteration-budget failure event, it contains no success result and the
budget failure is the last event yielded. -/
theorem claim_C2 (o : Oracle) (p : String) :
    (createChartGenerationAgent o p).serviceCalls ≤ MAX_ITERATIONS
    ∧ ((createChartGenerationAgent o p).events.any isBudgetFailure = true →
        (createChartGenerationAgent o p).events.any isSuccessEvent = false
        ∧ (createChartGenerationAgent o p).events.getLast? =
            some (AgentMessage.result_error budgetMessage)) := by
  cases hg : o.getTools with
  | error e =>
    constructor
    · simp [createChartGenerationAgent, hg]
    · intro h
      simp [createChartGenerationAgent, hg] at h
  | ok tools =>
    constructor
    · simp only [createChartGenerationAgent, hg]
      exact agentIter_serviceCalls_le o MAX_ITERATIONS 0 [Turn.user p]
    · intro h
      simp only [createChartGenerationAgent, hg] at h ⊢
      rcases agentIter_shape o MAX_ITERATIONS 0 [Turn.user p]
        with ⟨pre, s, hev, hall, _⟩ | ⟨pre, hev, hall, _⟩ | ⟨e, hall, _⟩
      · exfalso
        rw [hev] at h
        rw [List.any_append] at h
        rw [any_eq_false_of_all_nonresult pre isBudgetFailure isBudgetFailure_isResult hall] at h
        simp [isBudgetFailure] at h
      · constructor
        · rw [hev, List.any_append]
          rw [any_eq_false_of_all_nonresult pre isSuccessEvent isSuccessEvent_isResult hall]
          simp [isSuccessEvent]
        · rw [hev]
          simp
      · exfalso
        rw [any_eq_false_of_all_nonresult _ isBudgetFailure isBudgetFailure_isResult hall] at h
        exact Bool.false_ne_true h

/-- Witness for C2 at a concrete behavior: the looping completion service
exhausts the budget; the run then has no success event and ends with the
budget-failure event. -/
theorem claim_C2_witness :
    (createChartGenerationAgent loopingOracle "p").events.any isBudgetFailure = true
    ∧ (createChartGenerationAgent loopingOracle "p").events.any isSuccessEvent = false
    ∧ (createChartGenerationAgent loopingOracle "p").events.getLast? =
        some (AgentMessage.result_error budgetMessage) :=
  ⟨by decide, (claim_C2 loopingOracle "p").2 (by decide)⟩

/-- C10: for every request, the first tool-client operation is the single
`getTools` discovery call, and every later operation is a `callTool`
invocation — discovery happens exactly once, before any invocation. -/
theorem claim_C10 (o : Oracle) (p : String) :
    (createChartGenerationAgent o p).mcpOps.head? = some MCPOp.getTools
    ∧ ((createChartGenerationAgent o p).mcpOps.tail).all isCallToolOp = true := by
  cases hg : o.getTools with
  | error e => simp [createChartGenerationAgent, hg]
  | ok tools =>
    constructor
    · simp [createChartGenerationAgent, hg]
    · simp only [createChartGenerationAgent, hg, List.tail_cons]
      exact agentIter_ops_invocations o MAX_ITERATIONS 0 [Turn.user p]

/-- C6: a failing tool invocation is never dropped and never terminates the
loop: (a) a failed call's tool-result block is the error-marked Turn content
`Error executing tool: …` with `is_error := true`; (b) every requested call
of a reasoning round contributes exactly its block, in order, to the
tool-results Turn; (c) a round with requested tool calls continues with the
conversation extended by the assistant Turn and that tool-results Turn —
whether or not calls failed — and performs at least one further
completion-service call whenever budget remains. -/
theorem claim_C6 :
    (∀ (o : Oracle) (k : Nat) (id name : String) (input : Json) (e : String),
      o.callTool k name input = Except.error e →
      (handleToolUse o k (id, name, input)).2 =
        { tool_use_id := id, content := "Error executing tool: " ++ e, is_error := true })
    ∧ (∀ (o : Oracle) (blks : List (String × String × Json)) (k j : Nat)
        (hj : j < blks.length),
        ((processToolCalls o k blks).2.2.1).get? j =
          some ((handleToolUse o (k + j) (blks.get ⟨j, hj⟩)).2))
    ∧ (∀ (o : Oracle) (fuel k : Nat) (messages : List Turn) (response : CompletionResponse),
        o.complete messages = Except.ok response →
        ((response.content.filterMap toolUseOf).isEmpty
          || response.stop_reason == "end_turn") = false →
        (agentIter o (fuel + 1) k messages).serviceCalls
          = 1 + (agentIter o fuel
              ((processToolCalls o k (response.content.filterMap toolUseOf)).2.2.2)
              ((messages ++ [Turn.assistant response.content]) ++
                [Turn.toolResults
                  ((processToolCalls o k (response.content.filterMap toolUseOf)).2.2.1)])).serviceCalls
        ∧ (0 < fuel → 2 ≤ (agentIter o (fuel + 1) k messages).serviceCalls)) := by
  refine ⟨?_, ?_, ?_⟩
  · intro o k id name input e hfail
    simp [handleToolUse, hfail]
  · intro o blks
    induction blks with
    | nil => intro k j hj; simp at hj
    | cons blk rest ih =>
      intro k j hj
      cases j with
      | zero => simp [processToolCalls]
      | succ m =>
        have hm : m < rest.length := by simpa using hj
        have heq := ih (k + 1) m hm
        simp only [processToolCalls, List.get?_cons_succ]
        rw [heq]
        have harith : k + 1 + m = k + (m + 1) := by omega
        rw [harith]
        rfl
  · intro o fuel k messages response hc hterm
    constructor
    · rw [agentIter_succ_tools o fuel k messages response hc hterm]
    · intro hfuel
      cases fuel with
      | zero => exact absurd hfuel (Nat.lt_irrefl 0)
      | succ m =>
        rw [agentIter_succ_tools o (m + 1) k messages response hc hterm]
        dsimp only
        have := agentIter_serviceCalls_pos o m
          ((processToolCalls o k (response.content.filterMap toolUseOf)).2.2.2)
          ((messages ++ [Turn.assistant response.content]) ++
            [Turn.toolResults ((processToolCalls o k (response.content.filterMap toolUseOf)).2.2.1)])
        omega

/-- A behavior with a failing tool: one requested call which throws, then a
terminal round. -/
def failingToolOracle : Oracle where
  getTools := Except.ok []
  complete := fun turns =>
    if turns.length = 1 then
      Except.ok { stop_reason := "tool_use",
                  content := [ContentBlock.tool_use "id1" "execute_sql" (Json.obj [])] }
    else
      Except.ok { stop_reason := "end_turn", content := [ContentBlock.text "done"] }
  callTool := fun _ _ _ => Except.error "boom"

/-- Witness for C6 at a concrete behavior: the failed call produces the
error-marked Turn, and the loop still makes a second completion call. -/
theorem claim_C6_witness :
    failingToolOracle.callTool 0 "execute_sql" (Json.obj []) = Except.error "boom"
    ∧ (handleToolUse failingToolOracle 0 ("id1", "execute_sql", Json.obj [])).2 =
        { tool_use_id := "id1", content := "Error executing tool: " ++ "boom", is_error := true }
    ∧ 2 ≤ (agentIter failingToolOracle (1 + 1) 0 [Turn.user "p"]).serviceCalls :=
  ⟨rfl,
   claim_C6.1 failingToolOracle 0 "id1" "execute_sql" (Json.obj []) "boom" rfl,
   (claim_C6.2.2 failingToolOracle 1 0 [Turn.user "p"]
      { stop_reason := "tool_use",
        content := [ContentBlock.tool_use "id1" "execute_sql" (Json.obj [])] }
      rfl (by decide)).2 (by decide)⟩

lemma processAssistantMessage_reliable (blocks : List ContentBlock) :
    ∀ k, (processAssistantMessage reliableSink k blocks).2.2 = none
      ∧ ((processAssistantMessage reliableSink k blocks).1).all isThoughtMessageShape = true := by
  induction blocks with
  | nil => intro k; simp [processAssistantMessage]
  | cons b rest ih =>
    intro k
    cases b with
    | text t =>
      by_cases ht : t = ""
      · simpa [processAssistantMessage, ht] using ih k
      · have h1 := (ih (k + 1)).1
        have h2 := (ih (k + 1)).2
        simp [processAssistantMessage, ht, reliableSink, h1, h2,
          WebSocketClient.sendThought, isThoughtMessageShape]
    | tool_use id name input =>
      simpa [processAssistantMessage] using ih k

lemma streamLoop_reliable_no_exn : ∀ (evs : List AgentMessage) (k : Nat),
    (streamLoop reliableSink k evs).2.2 = none := by
  intro evs
  induction evs with
  | nil => intro k; simp [streamLoop]
  | cons ev rest ih =>
    intro k
    cases ev with
    | assistant content =>
      have h1 := (processAssistantMessage_reliable content k).1
      simp [streamLoop, h1, ih]
    | tool_use name input => simpa [streamLoop] using ih k
    | tool_result name outcome => simpa [streamLoop] using ih k
    | result_success r => simp [streamLoop, processResultMessage, reliableSink, ih]
    | result_error e => simp [streamLoop, processResultMessage, reliableSink, ih]

lemma streamLoop_reliable_append : ∀ (evs1 evs2 : List AgentMessage) (k : Nat),
    (streamLoop reliableSink k (evs1 ++ evs2)).1
      = (streamLoop reliableSink k evs1).1 ++
        (streamLoop reliableSink ((streamLoop reliableSink k evs1).2.1) evs2).1 := by
  intro evs1
  induction evs1 with
  | nil => intro evs2 k; simp [streamLoop]
  | cons ev rest ih =>
    intro evs2 k
    cases ev with
    | assistant content =>
      have h1 := (processAssistantMessage_reliable content k).1
      simp [streamLoop, h1, ih]
    | tool_use name input => simpa [streamLoop] using ih evs2 k
    | tool_result name outcome => simpa [streamLoop] using ih evs2 k
    | result_success r => simp [streamLoop, processResultMessage, reliableSink, ih]
    | result_error e => simp [streamLoop, processResultMessage, reliableSink, ih]

lemma streamLoop_reliable_thoughts : ∀ (evs : List AgentMessage),
    evs.all (fun ev => !isResultEvent ev) = true →
    ∀ k, ((streamLoop reliableSink k evs).1).all isThoughtMessageShape = true := by
  intro evs
  induction evs with
  | nil => intro _ k; simp [streamLoop]
  | cons ev rest ih =>
    intro hall k
    rw [List.all_cons, Bool.and_eq_true] at hall
    obtain ⟨hev, hrest⟩ := hall
    cases ev with
    | assistant content =>
      have h1 := (processAssistantMessage_reliable content k).1
      have h2 := (processAssistantMessage_reliable content k).2
      simp [streamLoop, h1, h2, ih hrest]
    | tool_use name input => simpa [streamLoop] using ih hrest k
    | tool_result name outcome => simpa [streamLoop] using ih hrest k
    | result_success r => simp [isResultEvent] at hev
    | result_error e => simp [isResultEvent] at hev

lemma streamLoop_reliable_success (s : String) (k : Nat) :
    (streamLoop reliableSink k [AgentMessage.result_success s]).1
      = [WebSocketClient.sendResult (parseResultData (Json.str s))] := by
  simp [streamLoop, processResultMessage, reliableSink]

lemma streamLoop_reliable_failure (e : String) (k : Nat) :
    (streamLoop reliableSink k [AgentMessage.result_error e]).1
      = [WebSocketClient.sendResult
          (Json.obj [("error",
            Json.str ("Agent processing failed: " ++ (if e = "" then "Unknown error" else e)))])] := by
  simp [streamLoop, processResultMessage, reliableSink]

lemma thoughts_append_terminal : ∀ (ts : List Json) (t : Json),
    ts.all isThoughtMessageShape = true → isTerminalPayload t = true →
    thoughtsThenOneTerminal (ts ++ [t]) = true := by
  intro ts
  induction ts with
  | nil => intro t _ ht; simpa [thoughtsThenOneTerminal] using ht
  | cons m ts' ih =>
    intro t hall ht
    rw [List.all_cons, Bool.and_eq_true] at hall
    obtain ⟨hm, hts'⟩ := hall
    cases ts' with
    | nil => simp [thoughtsThenOneTerminal, hm, ht]
    | cons b bs =>
      have hrec := ih t hts' ht
      rw [List.cons_append] at hrec
      rw [List.cons_append, List.cons_append]
      simp only [thoughtsThenOneTerminal, Bool.and_eq_true]
      exact ⟨hm, hrec⟩

lemma stream_run_done (sink : Nat → Option String) (run : AgentRun)
    (hex : (streamLoop sink 0 run.events).2.2 = none)
    (hdone : run.outcome = RunEnd.done) :
    (streamAgentResponseToWebSocket sink run).1 = (streamLoop sink 0 run.events).1 := by
  simp [streamAgentResponseToWebSocket, hex, hdone]

lemma stream_run_raised (sink : Nat → Option String) (run : AgentRun) (e : String)
    (hex : (streamLoop sink 0 run.events).2.2 = none)
    (hraised : run.outcome = RunEnd.raised e) :
    (streamAgentResponseToWebSocket sink run).1
      = (streamLoop sink 0 run.events).1 ++ [WebSocketClient.sendError e] := by
  simp [streamAgentResponseToWebSocket, hex, hraised]

lemma isTerminal_sendResult (d : Json) :
    isTerminalPayload (WebSocketClient.sendResult d) = true := by
  simp [isTerminalPayload, isResultMessageShape, WebSocketClient.sendResult]

lemma isTerminal_sendError (m : String) :
    isTerminalPayload (WebSocketClient.sendError m) = true := by
  simp [isTerminalPayload, isRawErrorPayload, WebSocketClient.sendError]

/-- C1: for every request (any tool/completion behavior) whose sink sends
all succeed, the payload sequence submitted to the transport sink is zero
or more `thought` messages followed by exactly one terminal message, and
nothing is sent after the terminal one. -/
theorem claim_C1 (o : Oracle) (p : String) :
    thoughtsThenOneTerminal
      ((streamAgentResponseToWebSocket reliableSink (createChartGenerationAgent o p)).1) = true := by
  cases hg : o.getTools with
  | error e =>
    simp [createChartGenerationAgent, hg, streamAgentResponseToWebSocket, streamLoop,
      thoughtsThenOneTerminal, isTerminalPayload, isRawErrorPayload, WebSocketClient.sendError]
  | ok tools =>
    have hrunev : (createChartGenerationAgent o p).events
        = (agentIter o MAX_ITERATIONS 0 [Turn.user p]).events := by
      simp [createChartGenerationAgent, hg]
    have hrunout : (createChartGenerationAgent o p).outcome
        = (agentIter o MAX_ITERATIONS 0 [Turn.user p]).outcome := by
      simp [createChartGenerationAgent, hg]
    rcases agentIter_shape o MAX_ITERATIONS 0 [Turn.user p] with
      ⟨pre, s, hev, hall, hout⟩ | ⟨pre, hev, hall, hout⟩ | ⟨e, hall, hout⟩
    · rw [stream_run_done reliableSink _ (streamLoop_reliable_no_exn _ 0)
        (by rw [hrunout, hout])]
      rw [hrunev, hev, streamLoop_reliable_append, streamLoop_reliable_success]
      exact thoughts_append_terminal _ _ (streamLoop_reliable_thoughts pre hall 0)
        (isTerminal_sendResult _)
    · rw [stream_run_done reliableSink _ (streamLoop_reliable_no_exn _ 0)
        (by rw [hrunout, hout])]
      rw [hrunev, hev, streamLoop_reliable_append, streamLoop_reliable_failure]
      exact thoughts_append_terminal _ _ (streamLoop_reliable_thoughts pre hall 0)
        (isTerminal_sendResult _)
    · rw [stream_run_raised reliableSink _ e (streamLoop_reliable_no_exn _ 0)
        (by rw [hrunout, hout])]
      rw [hrunev]
      exact thoughts_append_terminal _ _ (streamLoop_reliable_thoughts _ hall 0)
        (isTerminal_sendError e)

lemma shapes_of_thought (j : Json) (h : isThoughtMessageShape j = true) :
    isErrorMessageShape j = false ∧ isRawErrorPayload j = false
    ∧ isResultMessageShape j = false := by
  unfold isThoughtMessageShape at h
  split at h
  · exact ⟨rfl, rfl, rfl⟩
  · exact ⟨rfl, rfl, rfl⟩
  · exact absurd h (by simp)

lemma countErrorSends_thoughts (ts : List Json) (h : ts.all isThoughtMessageShape = true) :
    countErrorSends ts = 0 := by
  unfold countErrorSends
  rw [List.countP_eq_zero]
  intro j hj
  have := (List.all_eq_true.mp h) j hj
  obtain ⟨h1, h2, _⟩ := shapes_of_thought j this
  simp [h1, h2]

lemma countResultSends_thoughts (ts : List Json) (h : ts.all isThoughtMessageShape = true) :
    countResultSends ts = 0 := by
  unfold countResultSends
  rw [List.countP_eq_zero]
  intro j hj
  have := (List.all_eq_true.mp h) j hj
  obtain ⟨_, _, h3⟩ := shapes_of_thought j this
  simp [h3]

/-- C3 fails on the code: a run that ends in `final_failure` (iteration
budget exhausted) produces zero `error`-classified sends and one
`result`-typed send — the failure goes to the client inside a `result`
message's data payload. -/
theorem claim_C3_counterexample :
    (createChartGenerationAgent loopingOracle "p").events.any isFailureEvent = true
    ∧ countErrorSends
        ((streamAgentResponseToWebSocket reliableSink
          (createChartGenerationAgent loopingOracle "p")).1) = 0
    ∧ countResultSends
        ((streamAgentResponseToWebSocket reliableSink
          (createChartGenerationAgent loopingOracle "p")).1) = 1 :=
  ⟨by decide, by decide, by decide⟩

/-- C3 (amended): whenever the agent loop ends in `final_failure`, the
adapter (with a reliable sink) sends exactly one terminal message, but it is
a `result`-typed message whose data payload is
`{error: 'Agent processing failed: ' + reason}`; zero `error`-classified
messages are sent on that path. -/
theorem claim_C3 (o : Oracle) (p : String)
    (hfail : (createChartGenerationAgent o p).events.any isFailureEvent = true) :
    countErrorSends
      ((streamAgentResponseToWebSocket reliableSink (createChartGenerationAgent o p)).1) = 0
    ∧ countResultSends
      ((streamAgentResponseToWebSocket reliableSink (createChartGenerationAgent o p)).1) = 1
    ∧ ∃ ts, (streamAgentResponseToWebSocket reliableSink (createChartGenerationAgent o p)).1
        = ts ++ [WebSocketClient.sendResult
            (Json.obj [("error", Json.str ("Agent processing failed: " ++ budgetMessage))])]
      ∧ ts.all isThoughtMessageShape = true := by
  cases hg : o.getTools with
  | error e =>
    exfalso
    simp [createChartGenerationAgent, hg] at hfail
  | ok tools =>
    have hrunev : (createChartGenerationAgent o p).events
        = (agentIter o MAX_ITERATIONS 0 [Turn.user p]).events := by
      simp [createChartGenerationAgent, hg]
    have hrunout : (createChartGenerationAgent o p).outcome
        = (agentIter o MAX_ITERATIONS 0 [Turn.user p]).outcome := by
      simp [createChartGenerationAgent, hg]
    rw [hrunev] at hfail
    rcases agentIter_shape o MAX_ITERATIONS 0 [Turn.user p] with
      ⟨pre, s, hev, hall, hout⟩ | ⟨pre, hev, hall, hout⟩ | ⟨e, hall, hout⟩
    · exfalso
      rw [hev, List.any_append] at hfail
      rw [any_eq_false_of_all_nonresult pre isFailureEvent isFailureEvent_isResult hall] at hfail
      simp [isFailureEvent] at hfail
    · have htrace : (streamAgentResponseToWebSocket reliableSink
          (createChartGenerationAgent o p)).1
          = (streamLoop reliableSink 0 pre).1 ++
            [WebSocketClient.sendResult
              (Json.obj [("error", Json.str ("Agent processing failed: " ++ budgetMessage))])] := by
        rw [stream_run_done reliableSink _ (streamLoop_reliable_no_exn _ 0)
          (by rw [hrunout, hout])]
        rw [hrunev, hev, streamLoop_reliable_append, streamLoop_reliable_failure]
        have hne : ¬(budgetMessage = "") := by decide
        rw [if_neg hne]
      have hts := streamLoop_reliable_thoughts pre hall 0
      refine ⟨?_, ?_, ⟨(streamLoop reliableSink 0 pre).1, htrace, hts⟩⟩
      · rw [htrace]
        unfold countErrorSends
        rw [List.countP_append]
        have h0 : countErrorSends (streamLoop reliableSink 0 pre).1 = 0 :=
          countErrorSends_thoughts _ hts
        unfold countErrorSends at h0
        rw [h0]
        rfl
      · rw [htrace]
        unfold countResultSends
        rw [List.countP_append]
        have h0 : countResultSends (streamLoop reliableSink 0 pre).1 = 0 :=
          countResultSends_thoughts _ hts
        unfold countResultSends at h0
        rw [h0]
        rfl
    · exfalso
      rw [any_eq_false_of_all_nonresult _ isFailureEvent isFailureEvent_isResult hall] at hfail
      exact Bool.false_ne_true hfail

/-- Witness for the amended C3 at a concrete behavior: the looping
completion service exhausts the budget; the trace then has zero
error-classified sends and exactly one result-typed send. -/
theorem claim_C3_witness :
    countErrorSends
      ((streamAgentResponseToWebSocket reliableSink
        (createChartGenerationAgent loopingOracle "q")).1) = 0
    ∧ countResultSends
      ((streamAgentResponseToWebSocket reliableSink
        (createChartGenerationAgent loopingOracle "q")).1) = 1
    ∧ ∃ ts, (streamAgentResponseToWebSocket reliableSink
        (createChartGenerationAgent loopingOracle "q")).1
        = ts ++ [WebSocketClient.sendResult
            (Json.obj [("error", Json.str ("Agent processing failed: " ++ budgetMessage))])]
      ∧ ts.all isThoughtMessageShape = true :=
  claim_C3 loopingOracle "q" (by decide)

/-- All sink attempts `k, k+1, …, k+n-1` succeeded. -/
def sinkOkUpTo (sink : Nat → Option String) (k n : Nat) : Prop :=
  ∀ j, j < n → sink (k + j) = none

/-- Bookkeeping invariant tying a stretch of submitted payloads to the sink:
attempts are numbered consecutively from `k`; either no exception escaped
and every attempt succeeded, or the exception is exactly the last attempt's
failure and all earlier attempts succeeded. -/
def attemptsTrack (sink : Nat → Option String) (k : Nat)
    (js : List Json) (k' : Nat) (err : Option String) : Prop :=
  k' = k + js.length ∧
  ((err = none ∧ sinkOkUpTo sink k js.length) ∨
   (∃ e, err = some e ∧ 0 < js.length
     ∧ sink (k + (js.length - 1)) = some e ∧ sinkOkUpTo sink k (js.length - 1)))

lemma attemptsTrack_nil (sink : Nat → Option String) (k : Nat) :
    attemptsTrack sink k [] k none := by
  refine ⟨by simp, Or.inl ⟨rfl, ?_⟩⟩
  intro j hj
  simp at hj

lemma attemptsTrack_cons (sink : Nat → Option String) (k : Nat) (x : Json)
    (js : List Json) (k' : Nat) (err : Option String)
    (hk : sink k = none) (h : attemptsTrack sink (k + 1) js k' err) :
    attemptsTrack sink k (x :: js) k' err := by
  obtain ⟨hlen, hcases⟩ := h
  refine ⟨by simp [hlen]; omega, ?_⟩
  rcases hcases with ⟨herr, hok⟩ | ⟨e, herr, hpos, hfailidx, hok⟩
  · left
    refine ⟨herr, ?_⟩
    intro j hj
    cases j with
    | zero => simpa using hk
    | succ m =>
      have := hok m (by simp at hj; omega)
      simpa [Nat.add_comm, Nat.add_assoc, Nat.add_left_comm] using this
  · right
    refine ⟨e, herr, by simp, ?_, ?_⟩
    · have : k + ((x :: js).length - 1) = k + 1 + (js.length - 1) := by
        simp; omega
      rw [this]
      exact hfailidx
    · intro j hj
      cases j with
      | zero => simpa using hk
      | succ m =>
        have := hok m (by simp at hj; omega)
        simpa [Nat.add_comm, Nat.add_assoc, Nat.add_left_comm] using this

lemma attemptsTrack_single (sink : Nat → Option String) (k : Nat) (x : Json) :
    attemptsTrack sink k [x] (k + 1) (sink k) := by
  cases hk : sink k with
  | none =>
    refine ⟨by simp, Or.inl ⟨rfl, ?_⟩⟩
    intro j hj
    have : j = 0 := by simpa using hj
    subst this
    simpa using hk
  | some e =>
    refine ⟨by simp, Or.inr ⟨e, rfl, by simp, by simpa using hk, ?_⟩⟩
    intro j hj
    simp at hj

lemma attemptsTrack_append (sink : Nat → Option String) (k k1 k2 : Nat)
    (js1 js2 : List Json) (err : Option String)
    (h1 : attemptsTrack sink k js1 k1 none)
    (h2 : attemptsTrack sink k1 js2 k2 err) :
    attemptsTrack sink k (js1 ++ js2) k2 err := by
  obtain ⟨hlen1, hc1⟩ := h1
  obtain ⟨hlen2, hc2⟩ := h2
  rcases hc1 with ⟨_, hok1⟩ | ⟨e, habs, _⟩
  swap
  · exact absurd habs (by simp)
  refine ⟨by simp [hlen2, hlen1]; omega, ?_⟩
  rcases hc2 with ⟨herr, hok2⟩ | ⟨e, herr, hpos, hfailidx, hok2⟩
  · left
    refine ⟨herr, ?_⟩
    intro j hj
    simp at hj
    by_cases hjl : j < js1.length
    · exact hok1 j hjl
    · have hj2 : j - js1.length < js2.length := by omega
      have := hok2 (j - js1.length) hj2
      rw [hlen1] at this
      have harith : k + js1.length + (j - js1.length) = k + j := by omega
      rw [harith] at this
      exact this
  · right
    refine ⟨e, herr, by simp; omega, ?_, ?_⟩
    · rw [hlen1] at hfailidx
      have harith : k + ((js1 ++ js2).length - 1)
          = k + js1.length + (js2.length - 1) := by
        simp
        omega
      rw [harith]
      exact hfailidx
    · intro j hj
      simp at hj
      by_cases hjl : j < js1.length
      · exact hok1 j hjl
      · have hj2 : j - js1.length < js2.length - 1 := by omega
        have := hok2 (j - js1.length) hj2
        rw [hlen1] at this
        have harith : k + js1.length + (j - js1.length) = k + j := by omega
        rw [harith] at this
        exact this

lemma processAssistantMessage_track (sink : Nat → Option String) :
    ∀ (blocks : List ContentBlock) (k : Nat),
      attemptsTrack sink k (processAssistantMessage sink k blocks).1
        (processAssistantMessage sink k blocks).2.1
        (processAssistantMessage sink k blocks).2.2 := by
  intro blocks
  induction blocks with
  | nil => intro k; simpa [processAssistantMessage] using attemptsTrack_nil sink k
  | cons b rest ih =>
    intro k
    cases b with
    | text t =>
      by_cases ht : t = ""
      · simpa [processAssistantMessage, ht] using ih k
      · cases hk : sink k with
        | none =>
          have heq : processAssistantMessage sink k (ContentBlock.text t :: rest)
              = (WebSocketClient.sendThought t :: (processAssistantMessage sink (k + 1) rest).1,
                 (processAssistantMessage sink (k + 1) rest).2.1,
                 (processAssistantMessage sink (k + 1) rest).2.2) := by
            simp [processAssistantMessage, ht, hk]
          rw [heq]
          exact attemptsTrack_cons sink k _ _ _ _ hk (ih (k + 1))
        | some e =>
          have heq : processAssistantMessage sink k (ContentBlock.text t :: rest)
              = ([WebSocketClient.sendThought t], k + 1, some e) := by
            simp [processAssistantMessage, ht, hk]
          rw [heq]
          refine ⟨by simp, Or.inr ⟨e, rfl, by simp, by simpa using hk, ?_⟩⟩
          intro j hj
          simp at hj
    | tool_use id name input =>
      simpa [processAssistantMessage] using ih k

lemma processResultMessage_track (sink : Nat → Option String) (k : Nat) (msg : AgentMessage) :
    attemptsTrack sink k (processResultMessage sink k msg).1
      (processResultMessage sink k msg).2.1 (processResultMessage sink k msg).2.2 := by
  cases msg with
  | result_success s =>
    simpa [processResultMessage] using
      attemptsTrack_single sink k (WebSocketClient.sendResult (parseResultData (Json.str s)))
  | result_error e =>
    simpa [processResultMessage] using
      attemptsTrack_single sink k (WebSocketClient.sendResult
        (Json.obj [("error",
          Json.str ("Agent processing failed: " ++ (if e = "" then "Unknown error" else e)))]))
  | assistant content => simpa [processResultMessage] using attemptsTrack_nil sink k
  | tool_use name input => simpa [processResultMessage] using attemptsTrack_nil sink k
  | tool_result name outcome => simpa [processResultMessage] using attemptsTrack_nil sink k

lemma streamLoop_track (sink : Nat → Option String) :
    ∀ (evs : List AgentMessage) (k : Nat),
      attemptsTrack sink k (streamLoop sink k evs).1
        (streamLoop sink k evs).2.1 (streamLoop sink k evs).2.2 := by
  intro evs
  induction evs with
  | nil => intro k; simpa [streamLoop] using attemptsTrack_nil sink k
  | cons ev rest ih =>
    intro k
    cases ev with
    | assistant content =>
      cases herr : (processAssistantMessage sink k content).2.2 with
      | none =>
        have heq : streamLoop sink k (AgentMessage.assistant content :: rest)
            = ((processAssistantMessage sink k content).1
                ++ (streamLoop sink (processAssistantMessage sink k content).2.1 rest).1,
               (streamLoop sink (processAssistantMessage sink k content).2.1 rest).2.1,
               (streamLoop sink (processAssistantMessage sink k content).2.1 rest).2.2) := by
          simp [streamLoop, herr]
        rw [heq]
        have h1 := processAssistantMessage_track sink content k
        rw [herr] at h1
        exact attemptsTrack_append sink k _ _ _ _ _ h1 (ih _)
      | some e =>
        have heq : streamLoop sink k (AgentMessage.assistant content :: rest)
            = ((processAssistantMessage sink k content).1,
               (processAssistantMessage sink k content).2.1, some e) := by
          simp [streamLoop, herr]
        rw [heq]
        have h1 := processAssistantMessage_track sink content k
        rw [herr] at h1
        exact h1
    | tool_use name input => simpa [streamLoop] using ih k
    | tool_result name outcome => simpa [streamLoop] using ih k
    | result_success s =>
      cases herr : (processResultMessage sink k (AgentMessage.result_success s)).2.2 with
      | none =>
        have heq : streamLoop sink k (AgentMessage.result_success s :: rest)
            = ((processResultMessage sink k (AgentMessage.result_success s)).1
                ++ (streamLoop sink
                      (processResultMessage sink k (AgentMessage.result_success s)).2.1 rest).1,
               (streamLoop sink
                 (processResultMessage sink k (AgentMessage.result_success s)).2.1 rest).2.1,
               (streamLoop sink
                 (processResultMessage sink k (AgentMessage.result_success s)).2.1 rest).2.2) := by
          simp only [streamLoop]
          rw [herr]
        rw [heq]
        have h1 := processResultMessage_track sink k (AgentMessage.result_success s)
        rw [herr] at h1
        exact attemptsTrack_append sink k _ _ _ _ _ h1 (ih _)
      | some e =>
        have heq : streamLoop sink k (AgentMessage.result_success s :: rest)
            = ((processResultMessage sink k (AgentMessage.result_success s)).1,
               (processResultMessage sink k (AgentMessage.result_success s)).2.1, some e) := by
          simp only [streamLoop]
          rw [herr]
        rw [heq]
        have h1 := processResultMessage_track sink k (AgentMessage.result_success s)
        rw [herr] at h1
        exact h1
    | result_error e0 =>
      cases herr : (processResultMessage sink k (AgentMessage.result_error e0)).2.2 with
      | none =>
        have heq : streamLoop sink k (AgentMessage.result_error e0 :: rest)
            = ((processResultMessage sink k (AgentMessage.result_error e0)).1
                ++ (streamLoop sink
                      (processResultMessage sink k (AgentMessage.result_error e0)).2.1 rest).1,
               (streamLoop sink
                 (processResultMessage sink k (AgentMessage.result_error e0)).2.1 rest).2.1,
               (streamLoop sink
                 (processResultMessage sink k (AgentMessage.result_error e0)).2.1 rest).2.2) := by
          simp only [streamLoop]
          rw [herr]
        rw [heq]
        have h1 := processResultMessage_track sink k (AgentMessage.result_error e0)
        rw [herr] at h1
        exact attemptsTrack_append sink k _ _ _ _ _ h1 (ih _)
      | some e =>
        have heq : streamLoop sink k (AgentMessage.result_error e0 :: rest)
            = ((processResultMessage sink k (AgentMessage.result_error e0)).1,
               (processResultMessage sink k (AgentMessage.result_error e0)).2.1, some e) := by
          simp only [streamLoop]
          rw [herr]
        rw [heq]
        have h1 := processResultMessage_track sink k (AgentMessage.result_error e0)
        rw [herr] at h1
        exact h1

lemma stream_abort_after_failure (sink : Nat → Option String) (run : AgentRun)
    (i : Nat) (e : String) (hsink : sink i = some e) :
    (streamAgentResponseToWebSocket sink run).1.length ≤ i + 2
    ∧ ((streamAgentResponseToWebSocket sink run).1.drop (i + 1) = []
      ∨ (streamAgentResponseToWebSocket sink run).1.drop (i + 1)
          = [WebSocketClient.sendError e]) := by
  cases herr : (streamLoop sink 0 run.events).2.2 with
  | some e0 =>
    have htr := streamLoop_track sink run.events 0
    rw [herr] at htr
    obtain ⟨hlen, hc⟩ := htr
    rcases hc with ⟨habs, _⟩ | ⟨e1, he1, hpos, hfailidx, hok⟩
    · exact absurd habs (by simp)
    have he10 : e1 = e0 := by
      have := Option.some.inj he1
      exact this.symm
    subst he10
    have htrace : (streamAgentResponseToWebSocket sink run).1
        = (streamLoop sink 0 run.events).1 ++ [WebSocketClient.sendError e1] := by
      simp [streamAgentResponseToWebSocket, herr]
    rcases Nat.lt_trichotomy i ((streamLoop sink 0 run.events).1.length - 1) with hlt | heq2 | hgt
    · exfalso
      have := hok i hlt
      simp at this
      rw [this] at hsink
      exact Option.noConfusion hsink
    · have hee : e = e1 := by
        rw [← heq2] at hfailidx
        simp at hfailidx
        rw [hfailidx] at hsink
        exact (Option.some.inj hsink).symm
      subst hee
      constructor
      · rw [htrace]
        simp
        omega
      · right
        rw [htrace]
        have hidx : i + 1 = (streamLoop sink 0 run.events).1.length := by omega
        rw [hidx]
        exact List.drop_left _ _
    · have hge : (streamLoop sink 0 run.events).1.length ≤ i := by omega
      constructor
      · rw [htrace]
        simp
        omega
      · left
        rw [htrace]
        apply List.drop_eq_nil_of_le
        simp
        omega
  | none =>
    have htr := streamLoop_track sink run.events 0
    rw [herr] at htr
    obtain ⟨hlen, hc⟩ := htr
    rcases hc with ⟨_, hok⟩ | ⟨e1, habs, _⟩
    swap
    · exact absurd habs (by simp)
    have hge : (streamLoop sink 0 run.events).1.length ≤ i := by
      by_contra hcon
      push_neg at hcon
      have := hok i hcon
      simp at this
      rw [this] at hsink
      exact Option.noConfusion hsink
    cases hout : run.outcome with
    | done =>
      have htrace : (streamAgentResponseToWebSocket sink run).1
          = (streamLoop sink 0 run.events).1 := by
        simp [streamAgentResponseToWebSocket, herr, hout]
      constructor
      · rw [htrace]; omega
      · left
        rw [htrace]
        apply List.drop_eq_nil_of_le
        omega
    | raised e1 =>
      have htrace : (streamAgentResponseToWebSocket sink run).1
          = (streamLoop sink 0 run.events).1 ++ [WebSocketClient.sendError e1] := by
        simp [streamAgentResponseToWebSocket, herr, hout]
      constructor
      · rw [htrace]
        simp
        omega
      · left
        rw [htrace]
        apply List.drop_eq_nil_of_le
        simp
        omega

/-- A behavior with a text thought in round one, a successful tool call, and
a terminal answer in round two. -/
def chattyOracle : Oracle where
  getTools := Except.ok []
  complete := fun turns =>
    if turns.length = 1 then
      Except.ok { stop_reason := "tool_use",
                  content := [ContentBlock.text "thinking",
                              ContentBlock.tool_use "id1" "execute_sql" (Json.obj [])] }
    else
      Except.ok { stop_reason := "end_turn",
                  content := [ContentBlock.text "done"] }
  callTool := fun _ _ _ => Except.ok (Json.str "rows")

/-- A sink whose first send throws and later sends succeed. -/
def sinkFail0 : Nat → Option String := fun k => if k = 0 then some "boom" else none

/-- C8 fails on the code: when the first `thought` send throws, the adapter
stops consuming the stream and only attempts the catch-all error message —
the request's remaining messages (including its `result`) are never sent,
although the same behavior with a reliable sink does send a result. -/
theorem claim_C8_counterexample :
    (streamAgentResponseToWebSocket sinkFail0 (createChartGenerationAgent chattyOracle "p")).1
      = [WebSocketClient.sendThought "thinking", WebSocketClient.sendError "boom"]
    ∧ countResultSends
        ((streamAgentResponseToWebSocket reliableSink
          (createChartGenerationAgent chattyOracle "p")).1) = 1 :=
  ⟨rfl, by decide⟩

/-- C8 (amended): a sink send failure is logged and rethrown, aborting the
stream processing: if the sink throws at attempt `i`, at most one further
payload is submitted for the request — the catch-all `sendError` carrying
that failure's message — and nothing else follows. -/
theorem claim_C8 (o : Oracle) (p : String) (sink : Nat → Option String)
    (i : Nat) (e : String) (hsink : sink i = some e) :
    (streamAgentResponseToWebSocket sink (createChartGenerationAgent o p)).1.length ≤ i + 2
    ∧ ((streamAgentResponseToWebSocket sink (createChartGenerationAgent o p)).1.drop (i + 1) = []
      ∨ (streamAgentResponseToWebSocket sink (createChartGenerationAgent o p)).1.drop (i + 1)
          = [WebSocketClient.sendError e]) :=
  stream_abort_after_failure sink (createChartGenerationAgent o p) i e hsink

/-- Witness for the amended C8 at a concrete behavior: a sink failing on the
first attempt leaves at most two submitted payloads and nothing after the
error message. -/
theorem claim_C8_witness :
    sinkFail0 0 = some "boom"
    ∧ ((streamAgentResponseToWebSocket sinkFail0
          (createChartGenerationAgent chattyOracle "w")).1.length ≤ 0 + 2
      ∧ ((streamAgentResponseToWebSocket sinkFail0
            (createChartGenerationAgent chattyOracle "w")).1.drop (0 + 1) = []
        ∨ (streamAgentResponseToWebSocket sinkFail0
            (createChartGenerationAgent chattyOracle "w")).1.drop (0 + 1)
            = [WebSocketClient.sendError "boom"])) :=
  ⟨rfl, claim_C8 chattyOracle "w" sinkFail0 0 "boom" rfl⟩

/-- C4 is contradicted by the code (code bug per the spec's design note):
on a success text that fails every parse step, both variants of
`parseResultData` return an error object — `{error: …, original: …}` /
`{type:'error', message: …, original: …}` — instead of wrapping the raw
text as a plain-text payload. -/
theorem claim_C4 :
    JSON.parse "This is a plain natural-language answer." = none
    ∧ parseResultDataLG (Json.str "This is a plain natural-language answer.")
        = Json.obj [("error", Json.str "Failed to parse agent response as JSON"),
                    ("original", Json.str "This is a plain natural-language answer.")]
    ∧ parseResultData (Json.str "This is a plain natural-language answer.")
        = Json.obj [("type", Json.str "error"),
                    ("message", Json.str "Failed to parse agent response as JSON"),
                    ("original", Json.str "This is a plain natural-language answer.")] :=
  ⟨rfl, rfl, rfl⟩

/-- C9 is contradicted by the code (code bug against the repo's own
`types/websocket.ts` declarations): `sendError` sends `{error: message}`,
which is not the declared `{type:'error', message}` `ErrorMessage` shape and
inhabits no variant of the declared `WebSocketMessage` wire vocabulary. -/
theorem claim_C9 :
    WebSocketClient.sendError "Agent failed" = Json.obj [("error", Json.str "Agent failed")]
    ∧ isErrorMessageShape (WebSocketClient.sendError "Agent failed") = false
    ∧ conformsToWebSocketMessage (WebSocketClient.sendError "Agent failed") = false
    ∧ WebSocketClient.sendMessage (WebSocketClient.sendError "Agent failed")
        = "\x7b\"error\":\"Agent failed\"\x7d" :=
  ⟨rfl, rfl, rfl, rfl⟩

/-- A non-2xx HTTP reply. -/
def badResponse : HttpResponse :=
  { ok := false, status := 500, statusText := "Internal Server Error", body := "oops" }

/-- C5 fails on the code: on a non-2xx reply, `callTool` throws (the
model's `Except.error`) instead of returning an error-carrying outcome. -/
theorem claim_C5_counterexample :
    MCPClient.callTool (some badResponse) "execute_sql" (Json.obj [])
      = Except.error "MCP request failed: 500 Internal Server Error - oops" := rfl

/-- C5 (amended): on transport failure, a non-2xx response, or a
protocol-level error envelope, `callTool` throws an `Error` — the exception
escapes the Tool Client (and is caught by the Agent Loop, see C6). -/
theorem claim_C5 (t : Option HttpResponse) (name : String) (args : Json)
    (h : t = none
      ∨ ∃ r, t = some r ∧ (r.ok = false
          ∨ ∃ j, JSON.parse r.body = some j ∧ jsTruthy (j.get "error") = true)) :
    ∃ e, MCPClient.callTool t name args = Except.error e := by
  rcases h with hnone | ⟨r, ht, hbad⟩
  · subst hnone
    exact ⟨"fetch failed", rfl⟩
  · subst ht
    rcases hbad with hok | ⟨j, hparse, htruthy⟩
    · have hthrow : MCPClient.callTool (some r) name args
          = Except.error ("MCP request failed: " ++ toString r.status ++ " "
              ++ r.statusText ++ " - " ++ r.body) := by
        simp [MCPClient.callTool, MCPClient.rpcCall, hok]
      exact ⟨_, hthrow⟩
    · cases hok : r.ok with
      | false =>
        have hthrow : MCPClient.callTool (some r) name args
            = Except.error ("MCP request failed: " ++ toString r.status ++ " "
                ++ r.statusText ++ " - " ++ r.body) := by
          simp [MCPClient.callTool, MCPClient.rpcCall, hok]
        exact ⟨_, hthrow⟩
      | true =>
        have hthrow : MCPClient.callTool (some r) name args
            = Except.error ("MCP error: " ++
              (match (j.get "error").get "message" with
               | Json.str m' => if m' ≠ "" then m' else JSON.stringify (j.get "error")
               | _ => JSON.stringify (j.get "error"))) := by
          simp [MCPClient.callTool, MCPClient.rpcCall, hok, hparse, htruthy]
        exact ⟨_, hthrow⟩

/-- Witness for the amended C5: the non-2xx reply satisfies the failure
condition, and `callTool` indeed throws on it. -/
theorem claim_C5_witness :
    (some badResponse = none
      ∨ ∃ r, some badResponse = some r ∧ (r.ok = false
          ∨ ∃ j, JSON.parse r.body = some j ∧ jsTruthy (j.get "error") = true))
    ∧ ∃ e, MCPClient.callTool (some badResponse) "execute_sql" (Json.obj [])
        = Except.error e :=
  ⟨Or.inr ⟨badResponse, rfl, Or.inl rfl⟩,
   claim_C5 (some badResponse) "execute_sql" (Json.obj [])
     (Or.inr ⟨badResponse, rfl, Or.inl rfl⟩)⟩

/-- C7: a non-blank assistant text message (not a tool message, not a raw
schema dump) is forwarded verbatim as exactly one `thought` — unless
`extractJsonFromContent` recognizes it as the final structured answer, in
which case the recognized text is parsed and sent as the `result` instead
of (not in addition to) a thought. -/
theorem claim_C7 (s : String) (m : LGMessage)
    (hcontent : m.content = Json.str s)
    (htype : m.type ≠ some "tool")
    (hctor : m.ctorName ≠ some "ToolMessage")
    (hschema : jsStartsWith s "[\x7b\"schema\":" = false)
    (hblank : jsTrim s ≠ "") :
    (extractJsonFromContent s = none → processMessage m = ProcessOutcome.thought s)
    ∧ (∀ j, extractJsonFromContent s = some j →
        processMessage m = ProcessOutcome.result (parseResultDataLG (Json.str j))) := by
  have hs : s ≠ "" := by
    intro h
    exact hblank (by rw [h]; rfl)
  constructor
  · intro hex
    simp [processMessage, hcontent, lgContentString, jsTruthy, hs, htype, hctor, hschema,
      hblank, hex]
  · intro j hex
    simp [processMessage, hcontent, lgContentString, jsTruthy, hs, htype, hctor, hschema,
      hblank, hex]

/-- A plain assistant message from the LangGraph stream. -/
def plainAssistantMessage : LGMessage :=
  { type := some "ai", ctorName := some "AIMessage", content := Json.str "I am thinking" }

/-- Witness for C7: plain reasoning text is not recognized as a final
answer and goes out verbatim as a thought. -/
theorem claim_C7_witness :
    extractJsonFromContent "I am thinking" = none
    ∧ processMessage plainAssistantMessage = ProcessOutcome.thought "I am thinking" :=
  ⟨rfl,
   (claim_C7 "I am thinking" plainAssistantMessage rfl (by decide) (by decide) rfl
     (by decide)).1 rfl⟩
